import Mathlib

/-!
Verification of the set-reconciliation core of the terraform-provider-autoglue
repository (internal/provider), as a shallow embedding in Lean.

The embedded code:
* `sliceDifference` (node_pool_attachments_resources.go:40-61): builds two
  hash-sets from its slice arguments and returns the keys of each that are
  absent from the other.  Go map iteration order is unspecified; the embedding
  iterates the deduplicated keys in list order, a deterministic refinement —
  every theorem below is about the element sets, never the order.
* `stringSetToSlice` (node_pool_attachments_resources.go:23-35): a null or
  unknown Terraform set value becomes a nil slice (here `[]`); a known set
  yields its elements.
* `nodePoolServersResource.Update` / `clusterNodePoolsResource.Update`,
  `nodePoolServersResource.Read` / `clusterNodePoolsResource.Read` and the
  `read*IntoModel` helpers: modelled as functions from the Terraform state set,
  the plan set and an abstract attachment client to the trace of client calls
  issued, the resulting remote relation and the surfaced outcome.
* The remote relation's reaction to the calls (attach = set union, detach =
  removal of one id, both idempotent) follows the external-interface contract
  of the spec (§6): the remote system itself is not part of this repository.
-/

/-- A single HTTP call issued through `autoglueClient.doJSON`, abstracted to
the attachment-client vocabulary: `list` is the GET used by the
`read*IntoModel` helpers, `attach` the batched POST of the node-pool
attachment resources, `attachOne` the single-id POST of the cluster
node-pools resource, `detach` the single-id DELETE. -/
inductive ApiCall where
  | list : String → ApiCall
  | attach : String → List String → ApiCall
  | attachOne : String → String → ApiCall
  | detach : String → String → ApiCall
  deriving DecidableEq, Repr

/-- A Terraform set value as seen by `stringSetToSlice`: null, unknown, or a
known set given by its element list. -/
inductive TFSet where
  | null : TFSet
  | unknown : TFSet
  | known : List String → TFSet
  deriving DecidableEq, Repr

/-- `stringSetToSlice` (node_pool_attachments_resources.go:23-35): null and
unknown values become the nil slice, a known value yields its elements. -/
def stringSetToSlice : TFSet → List String
  | TFSet.null => []
  | TFSet.unknown => []
  | TFSet.known es => es

/-- `sliceDifference` (node_pool_attachments_resources.go:40-61): returns
`(onlyA, onlyB)` where `onlyA` are the distinct values of `a` absent from `b`
and `onlyB` the distinct values of `b` absent from `a`.  The Go code inserts
each slice into a map (collapsing duplicates) and walks the keys; here the
key walk is `List.dedup` in list order. -/
def sliceDifference (a b : List String) : List String × List String :=
  (a.dedup.filter (fun v => decide (v ∉ b)),
   b.dedup.filter (fun v => decide (v ∉ a)))

theorem mem_sliceDifference_fst (a b : List String) (x : String) :
    x ∈ (sliceDifference a b).1 ↔ x ∈ a ∧ x ∉ b := by
  simp [sliceDifference, List.mem_filter, List.mem_dedup]

theorem mem_sliceDifference_snd (a b : List String) (x : String) :
    x ∈ (sliceDifference a b).2 ↔ x ∈ b ∧ x ∉ a := by
  simp [sliceDifference, List.mem_filter, List.mem_dedup]

theorem nodup_sliceDifference_fst (a b : List String) :
    (sliceDifference a b).1.Nodup :=
  (List.nodup_dedup a).filter _

theorem nodup_sliceDifference_snd (a b : List String) :
    (sliceDifference a b).2.Nodup :=
  (List.nodup_dedup b).filter _

/-- Claim C1: `sliceDifference` is a correct two-sided set difference.  For
all input lists `a, b` (read as the finite sets of their elements):
`onlyA` is `A \ B`, `onlyB` is `B \ A`, `onlyA ∩ B = ∅`, `onlyB ∩ A = ∅`,
`(A \ onlyA) ∪ onlyB = B`, both outputs are duplicate-free, and the result
(as a pair of sets) depends only on the element sets of the inputs, not on
their order or duplication. -/
theorem sliceDifference_diff_correct (a b : List String) :
    (sliceDifference a b).1.toFinset = a.toFinset \ b.toFinset ∧
    (sliceDifference a b).2.toFinset = b.toFinset \ a.toFinset ∧
    (sliceDifference a b).1.toFinset ∩ b.toFinset = ∅ ∧
    (sliceDifference a b).2.toFinset ∩ a.toFinset = ∅ ∧
    (a.toFinset \ (sliceDifference a b).1.toFinset) ∪
      (sliceDifference a b).2.toFinset = b.toFinset ∧
    (sliceDifference a b).1.Nodup ∧
    (sliceDifference a b).2.Nodup ∧
    (∀ a' b' : List String, a.toFinset = a'.toFinset → b.toFinset = b'.toFinset →
      (sliceDifference a' b').1.toFinset = (sliceDifference a b).1.toFinset ∧
      (sliceDifference a' b').2.toFinset = (sliceDifference a b).2.toFinset) := by
  have hmem : ∀ x : String, ∀ l : List String, x ∈ l.toFinset ↔ x ∈ l := by
    intro x l; exact List.mem_toFinset
  refine ⟨?_, ?_, ?_, ?_, ?_, nodup_sliceDifference_fst a b,
    nodup_sliceDifference_snd a b, ?_⟩
  · ext x
    simp [mem_sliceDifference_fst]
  · ext x
    simp [mem_sliceDifference_snd]
  · ext x
    simp [mem_sliceDifference_fst]
  · ext x
    simp [mem_sliceDifference_snd]
  · ext x
    simp [mem_sliceDifference_fst, mem_sliceDifference_snd]
    tauto
  · intro a' b' ha hb
    have ha' : ∀ x : String, x ∈ a' ↔ x ∈ a := by
      intro x
      rw [← List.mem_toFinset, ← ha, List.mem_toFinset]
    have hb' : ∀ x : String, x ∈ b' ↔ x ∈ b := by
      intro x
      rw [← List.mem_toFinset, ← hb, List.mem_toFinset]
    constructor
    · ext x
      simp [mem_sliceDifference_fst, ha', hb']
    · ext x
      simp [mem_sliceDifference_snd, ha', hb']

/-- Witness for C1 at concrete inputs (spec Example 1, with the
order/duplication-independence hypotheses discharged on a shuffled,
duplicated copy of the same sets). -/
theorem sliceDifference_diff_correct_witness :
    (["a", "b", "c"].toFinset = (["c", "b", "a", "b"] : List String).toFinset ∧
     ["b", "c", "d"].toFinset = (["d", "d", "c", "b"] : List String).toFinset) ∧
    ((sliceDifference ["c", "b", "a", "b"] ["d", "d", "c", "b"]).1.toFinset =
       (sliceDifference ["a", "b", "c"] ["b", "c", "d"]).1.toFinset ∧
     (sliceDifference ["c", "b", "a", "b"] ["d", "d", "c", "b"]).2.toFinset =
       (sliceDifference ["a", "b", "c"] ["b", "c", "d"]).2.toFinset) := by
  have h := sliceDifference_diff_correct ["a", "b", "c"] ["b", "c", "d"]
  exact ⟨⟨by decide, by decide⟩,
    h.2.2.2.2.2.2.2 ["c", "b", "a", "b"] ["d", "d", "c", "b"] (by decide) (by decide)⟩

/-- The abstract attachment client a reconciling operation talks to:
the current remote relation plus a fault-injection description of which
calls fail (attach calls all fail or all succeed; a detach call fails
exactly when its id lies in `failDetach`; a GET fails with HTTP status
`s` when `listStatus = some s`). -/
structure AttachmentClient where
  remote : List String
  attachFails : Bool
  failDetach : List String
  listStatus : Option Nat
  deriving DecidableEq, Repr

/-- The error value `autoglueClient.doJSON` produces for a non-2xx response
(client.go:152-154): the HTTP status code together with the formatted
message `autoglue API error <status>: <body>`. -/
structure ApiError where
  status : Nat
  message : String
  deriving DecidableEq, Repr

/-- Builds the `doJSON` non-2xx error (client.go:152-154). -/
def doJSONErr (status : Nat) (body : String) : ApiError :=
  { status := status
    message := "autoglue API error " ++ toString status ++ ": " ++ body }

/-- Modelled from the spec: the error-classifying form of `isNotFound`
applied to `doJSON` errors by the attachment resources' Read methods is not
among the provided sources (http_err.go:18-20 only has the variant on a raw
`*http.Response`); following that variant and the spec's "distinguishable
not-found condition", an error is not-found exactly when its HTTP status is
404 (`http.StatusNotFound`). -/
def isNotFound (e : ApiError) : Bool :=
  e.status == 404

/-- The GET performed by `readServersIntoModel`
(node_pool_attachments_resources.go:331-361) and `readNodePoolsIntoModel`
(cluster_attachments_resource.go:974-1000): either the `doJSON` error, or
the member ids currently attached on the remote. -/
def listCall (c : AttachmentClient) : Except ApiError (List String) :=
  match c.listStatus with
  | some code => Except.error (doJSONErr code "")
  | none => Except.ok c.remote

/-- Remote effect of a successful batched attach: set union, per the spec's
idempotent-attach contract for the external API (§6). -/
def attachUnion (remote ids : List String) : List String :=
  remote ++ ids.filter (fun v => decide (v ∉ remote))

theorem mem_attachUnion (remote ids : List String) (x : String) :
    x ∈ attachUnion remote ids ↔ x ∈ remote ∨ x ∈ ids := by
  simp [attachUnion, List.mem_append, List.mem_filter]
  tauto

/-- The serial detach loop of the Update methods
(node_pool_attachments_resources.go:265-275,
cluster_attachments_resource.go:907-918): one single-id DELETE per id, in
order; on the first failing call the loop stops and returns the error
message; a successful detach removes the id from the remote relation
(idempotent removal, spec §6). -/
def detachLoop (parentID errMsg : String) (fails : List String) :
    List String → List String → List ApiCall × List String × Option String
  | remote, [] => ([], remote, none)
  | remote, id :: rest =>
    if id ∈ fails then
      ([ApiCall.detach parentID id], remote, some errMsg)
    else
      let step := detachLoop parentID errMsg fails (remote.filter (· != id)) rest
      (ApiCall.detach parentID id :: step.1, step.2)

/-- The per-id attach loop of `clusterNodePoolsResource.Update`
(cluster_attachments_resource.go:893-905): one single-id POST per id, in
order, aborting on the first failure; a successful attach adds the id
(idempotent union, spec §6). -/
def attachLoop (parentID errMsg : String) (fails : Bool) :
    List String → List String → List ApiCall × List String × Option String
  | remote, [] => ([], remote, none)
  | remote, id :: rest =>
    if fails then
      ([ApiCall.attachOne parentID id], remote, some errMsg)
    else
      let step := attachLoop parentID errMsg fails (attachUnion remote [id]) rest
      (ApiCall.attachOne parentID id :: step.1, step.2)

instance {ε α : Type} [DecidableEq ε] [DecidableEq α] : DecidableEq (Except ε α) :=
  fun x y =>
    match x, y with
    | Except.ok a, Except.ok b =>
      if h : a = b then isTrue (congrArg Except.ok h)
      else isFalse (fun he => h (Except.ok.inj he))
    | Except.error a, Except.error b =>
      if h : a = b then isTrue (congrArg Except.error h)
      else isFalse (fun he => h (Except.error.inj he))
    | Except.ok _, Except.error _ => isFalse (fun he => Except.noConfusion he)
    | Except.error _, Except.ok _ => isFalse (fun he => Except.noConfusion he)

/-- Outcome of a reconciling Update: the trace of client calls issued, the
remote relation afterwards, and either the surfaced error or the member-id
list stored into Terraform state (the ids read back by the trailing GET). -/
structure UpdateOutcome where
  calls : List ApiCall
  remote : List String
  result : Except String (List String)
  deriving DecidableEq, Repr

/-- `nodePoolServersResource.Update`
(node_pool_attachments_resources.go:217-286): converts the recorded state
set and the planned set to slices, diffs them with `sliceDifference`, issues
one batched attach when `toAttach` is non-empty (aborting on error before
any detach), then one single-id detach per id of `toDetach` (aborting on the
first error), and finally re-reads the attached servers via
`readServersIntoModel`, storing the listed ids as the new state. -/
def nodePoolServersUpdate (nodePoolID : String) (stateIDs planIDs : TFSet)
    (c : AttachmentClient) : UpdateOutcome :=
  let oldIDs := stringSetToSlice stateIDs
  let newIDs := stringSetToSlice planIDs
  let d := sliceDifference oldIDs newIDs
  let attachCalls : List ApiCall :=
    if d.2.isEmpty then [] else [ApiCall.attach nodePoolID d.2]
  if !d.2.isEmpty && c.attachFails then
    { calls := attachCalls
      remote := c.remote
      result := Except.error "Error attaching servers to node pool" }
  else
    let remote1 := if d.2.isEmpty then c.remote else attachUnion c.remote d.2
    match detachLoop nodePoolID "Error detaching server from node pool"
        c.failDetach remote1 d.1 with
    | (dCalls, remote2, some e) =>
      { calls := attachCalls ++ dCalls
        remote := remote2
        result := Except.error e }
    | (dCalls, remote2, none) =>
      match c.listStatus with
      | some code =>
        { calls := attachCalls ++ dCalls ++ [ApiCall.list nodePoolID]
          remote := remote2
          result := Except.error
            ("Error reading servers after update: " ++ (doJSONErr code "").message) }
      | none =>
        { calls := attachCalls ++ dCalls ++ [ApiCall.list nodePoolID]
          remote := remote2
          result := Except.ok remote2 }

/-- `clusterNodePoolsResource.Update` (cluster_attachments_resource.go:
858-929): same diff over recorded state and plan, but the attach phase is a
loop issuing one single-id POST per id of `toAttach`; then the single-id
detach loop, then the re-read via `readNodePoolsIntoModel`. -/
def clusterNodePoolsUpdate (clusterID : String) (stateIDs planIDs : TFSet)
    (c : AttachmentClient) : UpdateOutcome :=
  let oldIDs := stringSetToSlice stateIDs
  let newIDs := stringSetToSlice planIDs
  let d := sliceDifference oldIDs newIDs
  match attachLoop clusterID "Error attaching node pool to cluster"
      c.attachFails c.remote d.2 with
  | (aCalls, remote1, some e) =>
    { calls := aCalls, remote := remote1, result := Except.error e }
  | (aCalls, remote1, none) =>
    match detachLoop clusterID "Error detaching node pool from cluster"
        c.failDetach remote1 d.1 with
    | (dCalls, remote2, some e) =>
      { calls := aCalls ++ dCalls, remote := remote2, result := Except.error e }
    | (dCalls, remote2, none) =>
      match c.listStatus with
      | some code =>
        { calls := aCalls ++ dCalls ++ [ApiCall.list clusterID]
          remote := remote2
          result := Except.error
            ("Error reading node pools after update: " ++ (doJSONErr code "").message) }
      | none =>
        { calls := aCalls ++ dCalls ++ [ApiCall.list clusterID]
          remote := remote2
          result := Except.ok remote2 }

/-- Outcome of a Read: the resource was removed from state, an error
diagnostic was added (state kept), or the state was refreshed with the
listed ids. -/
inductive ReadOutcome where
  | removed : ReadOutcome
  | errored : String → ReadOutcome
  | updated : List String → ReadOutcome
  deriving DecidableEq, Repr

/-- `nodePoolServersResource.Read`
(node_pool_attachments_resources.go:185-215): an empty parent id removes the
resource; a not-found list error removes the resource; any other list error
is surfaced as a diagnostic; success refreshes state with the listed ids. -/
def nodePoolServersRead (nodePoolID : String) (c : AttachmentClient) :
    List ApiCall × ReadOutcome :=
  if nodePoolID = "" then ([], ReadOutcome.removed)
  else
    match listCall c with
    | Except.error e =>
      if isNotFound e then ([ApiCall.list nodePoolID], ReadOutcome.removed)
      else ([ApiCall.list nodePoolID],
        ReadOutcome.errored ("Error reading servers for node pool: " ++ e.message))
    | Except.ok ids => ([ApiCall.list nodePoolID], ReadOutcome.updated ids)

/-- `clusterNodePoolsResource.Read` (cluster_attachments_resource.go:
830-856): an empty parent id removes the resource; on ANY error from
`readNodePoolsIntoModel` — not-found or not — the resource is removed from
state and no diagnostic is added (lines 849-852); success refreshes state. -/
def clusterNodePoolsRead (clusterID : String) (c : AttachmentClient) :
    List ApiCall × ReadOutcome :=
  if clusterID = "" then ([], ReadOutcome.removed)
  else
    match listCall c with
    | Except.error _ => ([ApiCall.list clusterID], ReadOutcome.removed)
    | Except.ok ids => ([ApiCall.list clusterID], ReadOutcome.updated ids)

/-- Is this call a remote mutation (attach in either form, or detach)? -/
def ApiCall.isMutation : ApiCall → Bool
  | ApiCall.attach _ _ => true
  | ApiCall.attachOne _ _ => true
  | ApiCall.detach _ _ => true
  | ApiCall.list _ => false

/-- Is this call an attach (batched or single-id)? -/
def ApiCall.isAttachCall : ApiCall → Bool
  | ApiCall.attach _ _ => true
  | ApiCall.attachOne _ _ => true
  | _ => false

/-- Is this call a single-id detach? -/
def ApiCall.isDetachCall : ApiCall → Bool
  | ApiCall.detach _ _ => true
  | _ => false

/-- Cumulative remote effect of successfully detaching each id of `l` in
turn, starting from `r`. -/
def removeAll : List String → List String → List String
  | [], r => r
  | id :: rest, r => removeAll rest (r.filter (· != id))

theorem mem_removeAll (l : List String) : ∀ (r : List String) (x : String),
    x ∈ removeAll l r ↔ x ∈ r ∧ x ∉ l := by
  induction l with
  | nil => intro r x; simp [removeAll]
  | cons id rest ih =>
    intro r x
    rw [removeAll, ih]
    simp [List.mem_filter, List.mem_cons]
    tauto

/-- Cumulative remote effect of successfully attaching each id of `l` in
turn, starting from `r`. -/
def unionAll : List String → List String → List String
  | r, [] => r
  | r, id :: rest => unionAll (attachUnion r [id]) rest

theorem mem_unionAll (l : List String) : ∀ (r : List String) (x : String),
    x ∈ unionAll r l ↔ x ∈ r ∨ x ∈ l := by
  induction l with
  | nil => intro r x; simp [unionAll]
  | cons id rest ih =>
    intro r x
    rw [unionAll, ih]
    simp [mem_attachUnion, List.mem_cons]
    tauto

theorem detachLoop_success (p m : String) (fails : List String) (l : List String) :
    ∀ r : List String, (∀ y ∈ l, y ∉ fails) →
    detachLoop p m fails r l = (l.map (ApiCall.detach p), removeAll l r, none) := by
  induction l with
  | nil => intro r _; simp [detachLoop, removeAll]
  | cons id rest ih =>
    intro r h
    have hid : id ∉ fails := h id (List.mem_cons_self id rest)
    rw [detachLoop, if_neg hid, ih (r.filter (· != id))
      (fun y hy => h y (List.mem_cons_of_mem id hy))]
    simp [removeAll]

theorem detachLoop_fail (p m : String) (fails : List String) (bad : String)
    (rest : List String) (pre : List String) (hbad : bad ∈ fails) :
    ∀ r : List String, (∀ y ∈ pre, y ∉ fails) →
    detachLoop p m fails r (pre ++ bad :: rest) =
      ((pre ++ [bad]).map (ApiCall.detach p), removeAll pre r, some m) := by
  induction pre with
  | nil => intro r _; simp [detachLoop, if_pos hbad, removeAll]
  | cons id tl ih =>
    intro r h
    have hid : id ∉ fails := h id (List.mem_cons_self id tl)
    rw [List.cons_append, detachLoop, if_neg hid,
      ih (r.filter (· != id)) (fun y hy => h y (List.mem_cons_of_mem id hy))]
    simp [removeAll]

theorem attachLoop_success (p m : String) (l : List String) :
    ∀ r : List String,
    attachLoop p m false r l = (l.map (ApiCall.attachOne p), unionAll r l, none) := by
  induction l with
  | nil => intro r; simp [attachLoop, unionAll]
  | cons id rest ih =>
    intro r
    rw [attachLoop, if_neg (by simp), ih (attachUnion r [id])]
    simp [unionAll]

theorem nodePoolServersUpdate_success (np : String) (sSet pSet : TFSet)
    (cl : AttachmentClient) (d : List String × List String)
    (hd : d = sliceDifference (stringSetToSlice sSet) (stringSetToSlice pSet))
    (hA : cl.attachFails = false)
    (hD : ∀ y ∈ d.1, y ∉ cl.failDetach)
    (hL : cl.listStatus = none) :
    nodePoolServersUpdate np sSet pSet cl =
      { calls := (if d.2.isEmpty then [] else [ApiCall.attach np d.2]) ++
          d.1.map (ApiCall.detach np) ++ [ApiCall.list np]
        remote := removeAll d.1
          (if d.2.isEmpty then cl.remote else attachUnion cl.remote d.2)
        result := Except.ok (removeAll d.1
          (if d.2.isEmpty then cl.remote else attachUnion cl.remote d.2)) } := by
  subst hd
  unfold nodePoolServersUpdate
  rw [hA]
  simp only [Bool.and_false, Bool.false_eq_true, if_false,
    detachLoop_success _ _ _ _ _ hD, hL]

theorem clusterNodePoolsUpdate_success (cid : String) (sSet pSet : TFSet)
    (cl : AttachmentClient) (d : List String × List String)
    (hd : d = sliceDifference (stringSetToSlice sSet) (stringSetToSlice pSet))
    (hA : cl.attachFails = false)
    (hD : ∀ y ∈ d.1, y ∉ cl.failDetach)
    (hL : cl.listStatus = none) :
    clusterNodePoolsUpdate cid sSet pSet cl =
      { calls := d.2.map (ApiCall.attachOne cid) ++
          d.1.map (ApiCall.detach cid) ++ [ApiCall.list cid]
        remote := removeAll d.1 (unionAll cl.remote d.2)
        result := Except.ok (removeAll d.1 (unionAll cl.remote d.2)) } := by
  subst hd
  unfold clusterNodePoolsUpdate
  rw [hA]
  simp only [attachLoop_success, detachLoop_success _ _ _ _ _ hD, hL]

theorem mem_iff_of_toFinset_eq {s p : List String} (h : s.toFinset = p.toFinset) :
    ∀ x : String, x ∈ s ↔ x ∈ p := by
  intro x
  rw [← List.mem_toFinset, h, List.mem_toFinset]

theorem sliceDifference_eq_nil_pair (s p : List String)
    (h : ∀ x : String, x ∈ s ↔ x ∈ p) :
    sliceDifference s p = ([], []) := by
  have h1 : (sliceDifference s p).1 = [] := by
    rw [List.eq_nil_iff_forall_not_mem]
    intro x hx
    rw [mem_sliceDifference_fst] at hx
    exact hx.2 ((h x).mp hx.1)
  have h2 : (sliceDifference s p).2 = [] := by
    rw [List.eq_nil_iff_forall_not_mem]
    intro x hx
    rw [mem_sliceDifference_snd] at hx
    exact hx.2 ((h x).mpr hx.1)
  calc sliceDifference s p
      = ((sliceDifference s p).1, (sliceDifference s p).2) := rfl
    _ = ([], []) := by rw [h1, h2]

theorem nodePoolServersUpdate_mutation_free (np : String) (sIDs pIDs : List String)
    (cl : AttachmentClient)
    (h : sliceDifference sIDs pIDs = ([], [])) :
    (nodePoolServersUpdate np (TFSet.known sIDs) (TFSet.known pIDs) cl).calls.filter
      ApiCall.isMutation = [] := by
  unfold nodePoolServersUpdate
  simp only [stringSetToSlice, h, detachLoop]
  cases cl.listStatus <;> simp [ApiCall.isMutation]

theorem clusterNodePoolsUpdate_mutation_free (cid : String) (sIDs pIDs : List String)
    (cl : AttachmentClient)
    (h : sliceDifference sIDs pIDs = ([], [])) :
    (clusterNodePoolsUpdate cid (TFSet.known sIDs) (TFSet.known pIDs) cl).calls.filter
      ApiCall.isMutation = [] := by
  unfold clusterNodePoolsUpdate
  simp only [stringSetToSlice, h, detachLoop, attachLoop]
  cases cl.listStatus <;> simp [ApiCall.isMutation]

/-- Claim C2 is false on the code: the reconciling updates never call
`client.list` before computing the diff; the diff is taken between the
previously recorded Terraform state set and the planned set
(node_pool_attachments_resources.go:244-250).  Concrete counterexample:
recorded state `{"a"}`, plan `{"a"}`, but remote relation `{"b"}` — the
update issues no attach and no detach (its only client call is the trailing
GET), even though the diff against the freshly fetched remote set would be
`toDetach = {"b"}, toAttach = {"a"}` and would demand mutations. -/
theorem update_no_fresh_list_counterexample :
    (nodePoolServersUpdate "np" (TFSet.known ["a"]) (TFSet.known ["a"])
        { remote := ["b"], attachFails := false, failDetach := [],
          listStatus := none }).calls = [ApiCall.list "np"] ∧
    (sliceDifference ["b"] ["a"]).1 = ["b"] ∧
    (sliceDifference ["b"] ["a"]).2 = ["a"] := by
  decide

/-- Claim C2 (amended): a reconciling update computes the diff from the
previously recorded state set versus the planned set, without fetching the
remote member-id set first; the single `client.list` call of an update
happens only after all attach/detach mutations, to refresh state.  Shown by
the full call-trace equation of both update methods. -/
theorem update_diffs_recorded_state (parent : String) (sSet pSet : TFSet)
    (cl : AttachmentClient) (d : List String × List String)
    (hd : d = sliceDifference (stringSetToSlice sSet) (stringSetToSlice pSet))
    (hA : cl.attachFails = false)
    (hD : ∀ y ∈ d.1, y ∉ cl.failDetach)
    (hL : cl.listStatus = none) :
    (nodePoolServersUpdate parent sSet pSet cl).calls =
      (if d.2.isEmpty then [] else [ApiCall.attach parent d.2]) ++
        d.1.map (ApiCall.detach parent) ++ [ApiCall.list parent] ∧
    (clusterNodePoolsUpdate parent sSet pSet cl).calls =
      d.2.map (ApiCall.attachOne parent) ++
        d.1.map (ApiCall.detach parent) ++ [ApiCall.list parent] := by
  rw [nodePoolServersUpdate_success parent sSet pSet cl d hd hA hD hL,
    clusterNodePoolsUpdate_success parent sSet pSet cl d hd hA hD hL]
  exact ⟨rfl, rfl⟩

/-- Witness for the amended C2 at concrete inputs (recorded `{"a","b"}`,
planned `{"b","c"}`, remote `{"a","b"}`). -/
theorem update_diffs_recorded_state_witness :
    (nodePoolServersUpdate "p" (TFSet.known ["a", "b"]) (TFSet.known ["b", "c"])
        { remote := ["a", "b"], attachFails := false, failDetach := [],
          listStatus := none }).calls =
      [ApiCall.attach "p" ["c"], ApiCall.detach "p" "a", ApiCall.list "p"] ∧
    (clusterNodePoolsUpdate "p" (TFSet.known ["a", "b"]) (TFSet.known ["b", "c"])
        { remote := ["a", "b"], attachFails := false, failDetach := [],
          listStatus := none }).calls =
      [ApiCall.attachOne "p" "c", ApiCall.detach "p" "a", ApiCall.list "p"] := by
  have h := update_diffs_recorded_state "p" (TFSet.known ["a", "b"])
    (TFSet.known ["b", "c"])
    { remote := ["a", "b"], attachFails := false, failDetach := [], listStatus := none }
    (["a"], ["c"]) (by decide) (by decide) (by decide) (by decide)
  exact ⟨by rw [h.1]; decide, by rw [h.2]; decide⟩

theorem filter_isDetach_map_detach (p : String) (l : List String) :
    (l.map (ApiCall.detach p)).filter ApiCall.isDetachCall = l.map (ApiCall.detach p) := by
  induction l with
  | nil => rfl
  | cons x xs ih => simp [ApiCall.isDetachCall, ih]

theorem filter_isAttach_map_detach (p : String) (l : List String) :
    (l.map (ApiCall.detach p)).filter ApiCall.isAttachCall = [] := by
  induction l with
  | nil => rfl
  | cons x xs ih => simp [ApiCall.isAttachCall, ih]

theorem filter_isAttach_map_attachOne (p : String) (l : List String) :
    (l.map (ApiCall.attachOne p)).filter ApiCall.isAttachCall = l.map (ApiCall.attachOne p) := by
  induction l with
  | nil => rfl
  | cons x xs ih => simp [ApiCall.isAttachCall, ih]

theorem filter_isDetach_map_attachOne (p : String) (l : List String) :
    (l.map (ApiCall.attachOne p)).filter ApiCall.isDetachCall = [] := by
  induction l with
  | nil => rfl
  | cons x xs ih => simp [ApiCall.isDetachCall, ih]

/-- Claim C3 is false on the code as a statement about every attachment
relation: `clusterNodePoolsResource.Update`
(cluster_attachments_resource.go:893-905) issues one single-id attach call
per id of `toAttach`, not one batched call.  Concrete counterexample:
recorded state `{}`, plan `{"x","y"}` — the cluster update issues two
attach calls, each carrying one id, where the claim demands exactly one
call carrying both. -/
theorem cluster_attach_not_batched_counterexample :
    ((clusterNodePoolsUpdate "c1" (TFSet.known []) (TFSet.known ["x", "y"])
        { remote := [], attachFails := false, failDetach := [],
          listStatus := none }).calls.filter ApiCall.isAttachCall).length = 2 ∧
    (clusterNodePoolsUpdate "c1" (TFSet.known []) (TFSet.known ["x", "y"])
        { remote := [], attachFails := false, failDetach := [],
          listStatus := none }).calls.filter ApiCall.isAttachCall =
      [ApiCall.attachOne "c1" "x", ApiCall.attachOne "c1" "y"] := by
  decide

/-- Claim C3 (amended): in the node-pool attachment updates, a non-empty
`toAttach` produces exactly one batched attach call carrying all of
`toAttach`, and each id of `toDetach` produces exactly one single-id detach
call; the cluster node-pools update instead issues one single-id attach
call per id of `toAttach` (and the same single-id detach calls). -/
theorem attach_batching_per_resource (parent : String) (sSet pSet : TFSet)
    (cl : AttachmentClient) (d : List String × List String)
    (hd : d = sliceDifference (stringSetToSlice sSet) (stringSetToSlice pSet))
    (hA : cl.attachFails = false)
    (hD : ∀ y ∈ d.1, y ∉ cl.failDetach)
    (hL : cl.listStatus = none) :
    ((nodePoolServersUpdate parent sSet pSet cl).calls.filter ApiCall.isAttachCall =
        (if d.2.isEmpty then [] else [ApiCall.attach parent d.2]) ∧
      (nodePoolServersUpdate parent sSet pSet cl).calls.filter ApiCall.isDetachCall =
        d.1.map (ApiCall.detach parent)) ∧
    ((clusterNodePoolsUpdate parent sSet pSet cl).calls.filter ApiCall.isAttachCall =
        d.2.map (ApiCall.attachOne parent) ∧
      (clusterNodePoolsUpdate parent sSet pSet cl).calls.filter ApiCall.isDetachCall =
        d.1.map (ApiCall.detach parent)) := by
  rw [nodePoolServersUpdate_success parent sSet pSet cl d hd hA hD hL,
    clusterNodePoolsUpdate_success parent sSet pSet cl d hd hA hD hL]
  refine ⟨⟨?_, ?_⟩, ⟨?_, ?_⟩⟩ <;>
    by_cases he : d.2.isEmpty <;>
      simp [he, List.filter_append, filter_isDetach_map_detach,
        filter_isAttach_map_detach, filter_isAttach_map_attachOne,
        filter_isDetach_map_attachOne, ApiCall.isAttachCall, ApiCall.isDetachCall]

/-- Witness for the amended C3 at concrete inputs (spec Examples 2 and 3
combined: attach two, detach one). -/
theorem attach_batching_per_resource_witness :
    ((nodePoolServersUpdate "p" (TFSet.known ["a"]) (TFSet.known ["x", "y"])
        { remote := ["a"], attachFails := false, failDetach := [],
          listStatus := none }).calls.filter ApiCall.isAttachCall =
      [ApiCall.attach "p" ["x", "y"]]) ∧
    ((clusterNodePoolsUpdate "p" (TFSet.known ["a"]) (TFSet.known ["x", "y"])
        { remote := ["a"], attachFails := false, failDetach := [],
          listStatus := none }).calls.filter ApiCall.isAttachCall =
      [ApiCall.attachOne "p" "x", ApiCall.attachOne "p" "y"]) := by
  have h := attach_batching_per_resource "p" (TFSet.known ["a"]) (TFSet.known ["x", "y"])
    { remote := ["a"], attachFails := false, failDetach := [], listStatus := none }
    (["a"], ["x", "y"]) (by decide) (by decide) (by decide) (by decide)
  exact ⟨by rw [h.1.1]; decide, by rw [h.2.1]; decide⟩

/-- Claim C5: when the two diffed sets coincide, a reconciling update issues
no attach and no detach call at all — `sliceDifference` returns two empty
lists and the only client call of either update method is the trailing
re-read. -/
theorem reconcile_no_redundant_calls (parent : String) (sIDs pIDs : List String)
    (cl : AttachmentClient) (hEq : sIDs.toFinset = pIDs.toFinset) :
    sliceDifference sIDs pIDs = ([], []) ∧
    (nodePoolServersUpdate parent (TFSet.known sIDs) (TFSet.known pIDs) cl).calls.filter
      ApiCall.isMutation = [] ∧
    (clusterNodePoolsUpdate parent (TFSet.known sIDs) (TFSet.known pIDs) cl).calls.filter
      ApiCall.isMutation = [] := by
  have hdiff := sliceDifference_eq_nil_pair sIDs pIDs (mem_iff_of_toFinset_eq hEq)
  exact ⟨hdiff, nodePoolServersUpdate_mutation_free parent sIDs pIDs cl hdiff,
    clusterNodePoolsUpdate_mutation_free parent sIDs pIDs cl hdiff⟩

/-- Witness for C5 at concrete inputs: the same set `{"a","b"}` recorded and
planned (in different element order), with a client whose mutation calls
would all fail if issued — no mutation call is made. -/
theorem reconcile_no_redundant_calls_witness :
    (["a", "b"] : List String).toFinset = (["b", "a"] : List String).toFinset ∧
    (nodePoolServersUpdate "p" (TFSet.known ["a", "b"]) (TFSet.known ["b", "a"])
        { remote := ["a", "b"], attachFails := true, failDetach := ["a", "b"],
          listStatus := none }).calls.filter ApiCall.isMutation = [] := by
  refine ⟨by decide, ?_⟩
  exact (reconcile_no_redundant_calls "p" ["a", "b"] ["b", "a"]
    { remote := ["a", "b"], attachFails := true, failDetach := ["a", "b"],
      listStatus := none } (by decide)).2.1

theorem nodePoolServersUpdate_attach_fail (np : String) (sSet pSet : TFSet)
    (cl : AttachmentClient) (d : List String × List String)
    (hd : d = sliceDifference (stringSetToSlice sSet) (stringSetToSlice pSet))
    (hA : cl.attachFails = true) (hne : d.2 ≠ []) :
    nodePoolServersUpdate np sSet pSet cl =
      { calls := [ApiCall.attach np d.2]
        remote := cl.remote
        result := Except.error "Error attaching servers to node pool" } := by
  subst hd
  have he : (sliceDifference (stringSetToSlice sSet) (stringSetToSlice pSet)).2.isEmpty
      = false := by
    rw [List.isEmpty_eq_false]
    exact hne
  unfold nodePoolServersUpdate
  rw [hA]
  simp [he]

theorem nodePoolServersUpdate_detach_fail (np : String) (sSet pSet : TFSet)
    (cl : AttachmentClient) (d : List String × List String)
    (hd : d = sliceDifference (stringSetToSlice sSet) (stringSetToSlice pSet))
    (hA : cl.attachFails = false)
    (pre rest : List String) (bad : String)
    (hsplit : d.1 = pre ++ bad :: rest)
    (hpre : ∀ y ∈ pre, y ∉ cl.failDetach) (hbad : bad ∈ cl.failDetach) :
    nodePoolServersUpdate np sSet pSet cl =
      { calls := (if d.2.isEmpty then [] else [ApiCall.attach np d.2]) ++
          (pre ++ [bad]).map (ApiCall.detach np)
        remote := removeAll pre
          (if d.2.isEmpty then cl.remote else attachUnion cl.remote d.2)
        result := Except.error "Error detaching server from node pool" } := by
  subst hd
  unfold nodePoolServersUpdate
  rw [hA]
  simp only [Bool.and_false, Bool.false_eq_true, if_false, hsplit,
    detachLoop_fail _ _ _ _ _ _ hbad _ hpre]

/-- Claim C4: fail-fast error semantics of the reconciling update
(node_pool_attachments_resources.go:252-275).  First conjunct: when the
batched attach call fails, the update surfaces the attach error at once —
zero detach calls are issued and the remote relation is untouched.  Second
conjunct: when the detach loop hits a failing id, the detaches issued are
exactly those before the failing id plus the failing call itself — none of
the remaining ids is detached — and the detach error is surfaced. -/
theorem update_fail_fast :
    (∀ (np : String) (sSet pSet : TFSet) (cl : AttachmentClient),
      cl.attachFails = true →
      (sliceDifference (stringSetToSlice sSet) (stringSetToSlice pSet)).2 ≠ [] →
      (nodePoolServersUpdate np sSet pSet cl).result =
          Except.error "Error attaching servers to node pool" ∧
      (nodePoolServersUpdate np sSet pSet cl).calls.filter ApiCall.isDetachCall = [] ∧
      (nodePoolServersUpdate np sSet pSet cl).remote = cl.remote) ∧
    (∀ (np : String) (sSet pSet : TFSet) (cl : AttachmentClient)
        (pre rest : List String) (bad : String),
      cl.attachFails = false →
      (sliceDifference (stringSetToSlice sSet) (stringSetToSlice pSet)).1 =
        pre ++ bad :: rest →
      (∀ y ∈ pre, y ∉ cl.failDetach) → bad ∈ cl.failDetach →
      (nodePoolServersUpdate np sSet pSet cl).result =
          Except.error "Error detaching server from node pool" ∧
      (nodePoolServersUpdate np sSet pSet cl).calls.filter ApiCall.isDetachCall =
        (pre ++ [bad]).map (ApiCall.detach np)) := by
  constructor
  · intro np sSet pSet cl hA hne
    rw [nodePoolServersUpdate_attach_fail np sSet pSet cl _ rfl hA hne]
    exact ⟨rfl, by simp [ApiCall.isDetachCall], rfl⟩
  · intro np sSet pSet cl pre rest bad hA hsplit hpre hbad
    rw [nodePoolServersUpdate_detach_fail np sSet pSet cl _ rfl hA pre rest bad
      hsplit hpre hbad]
    refine ⟨rfl, ?_⟩
    by_cases he : (sliceDifference (stringSetToSlice sSet) (stringSetToSlice pSet)).2.isEmpty <;>
      simp [he, List.filter_append, filter_isDetach_map_detach, ApiCall.isDetachCall]

/-- Witness for C4: conjunct one at a client whose attach fails (recorded
`{"a"}`, planned `{"b"}`), conjunct two at a client where detaching `"b"`
fails (recorded `{"a","b"}`, planned `{}`, detach of `"a"` succeeds first). -/
theorem update_fail_fast_witness :
    ((nodePoolServersUpdate "p" (TFSet.known ["a"]) (TFSet.known ["b"])
        { remote := ["a"], attachFails := true, failDetach := [],
          listStatus := none }).result =
        Except.error "Error attaching servers to node pool" ∧
      (nodePoolServersUpdate "p" (TFSet.known ["a"]) (TFSet.known ["b"])
        { remote := ["a"], attachFails := true, failDetach := [],
          listStatus := none }).calls.filter ApiCall.isDetachCall = [] ∧
      (nodePoolServersUpdate "p" (TFSet.known ["a"]) (TFSet.known ["b"])
        { remote := ["a"], attachFails := true, failDetach := [],
          listStatus := none }).remote = ["a"]) ∧
    ((nodePoolServersUpdate "p" (TFSet.known ["a", "b"]) (TFSet.known [])
        { remote := ["a", "b"], attachFails := false, failDetach := ["b"],
          listStatus := none }).result =
        Except.error "Error detaching server from node pool" ∧
      (nodePoolServersUpdate "p" (TFSet.known ["a", "b"]) (TFSet.known [])
        { remote := ["a", "b"], attachFails := false, failDetach := ["b"],
          listStatus := none }).calls.filter ApiCall.isDetachCall =
        (["a"] ++ ["b"]).map (ApiCall.detach "p")) := by
  exact ⟨update_fail_fast.1 "p" (TFSet.known ["a"]) (TFSet.known ["b"])
      { remote := ["a"], attachFails := true, failDetach := [], listStatus := none }
      (by decide) (by decide),
    update_fail_fast.2 "p" (TFSet.known ["a", "b"]) (TFSet.known [])
      { remote := ["a", "b"], attachFails := false, failDetach := ["b"],
        listStatus := none }
      ["a"] [] "b" (by decide) (by decide) (by decide) (by decide)⟩

/-- Claim C6: after all attach and detach calls succeed, the update
re-fetches the member-id set (`readServersIntoModel`, the trailing `list`
call of the trace) and stores exactly what that fetch returned — the remote
relation as it stands after the mutations — as the resulting state, rather
than the locally planned set. -/
theorem update_returns_relisted_state (np : String) (sSet pSet : TFSet)
    (cl : AttachmentClient) (d : List String × List String)
    (hd : d = sliceDifference (stringSetToSlice sSet) (stringSetToSlice pSet))
    (hA : cl.attachFails = false)
    (hD : ∀ y ∈ d.1, y ∉ cl.failDetach)
    (hL : cl.listStatus = none) :
    (nodePoolServersUpdate np sSet pSet cl).result =
      Except.ok ((nodePoolServersUpdate np sSet pSet cl).remote) ∧
    (nodePoolServersUpdate np sSet pSet cl).calls.getLast? =
      some (ApiCall.list np) ∧
    listCall { remote := (nodePoolServersUpdate np sSet pSet cl).remote,
               attachFails := false, failDetach := [], listStatus := none } =
      Except.ok ((nodePoolServersUpdate np sSet pSet cl).remote) := by
  rw [nodePoolServersUpdate_success np sSet pSet cl d hd hA hD hL]
  refine ⟨rfl, ?_, rfl⟩
  simp [List.getLast?_append]

/-- Witness for C6: recorded `{"a"}`, planned `{"a"}`, but remote `{"b"}` —
the stored result is the freshly listed `{"b"}`, visibly distinct from the
planned desired set `{"a"}`. -/
theorem update_returns_relisted_state_witness :
    (nodePoolServersUpdate "p" (TFSet.known ["a"]) (TFSet.known ["a"])
        { remote := ["b"], attachFails := false, failDetach := [],
          listStatus := none }).result =
      Except.ok ((nodePoolServersUpdate "p" (TFSet.known ["a"]) (TFSet.known ["a"])
        { remote := ["b"], attachFails := false, failDetach := [],
          listStatus := none }).remote) ∧
    (nodePoolServersUpdate "p" (TFSet.known ["a"]) (TFSet.known ["a"])
        { remote := ["b"], attachFails := false, failDetach := [],
          listStatus := none }).result ≠ Except.ok ["a"] := by
  refine ⟨(update_returns_relisted_state "p" (TFSet.known ["a"]) (TFSet.known ["a"])
    { remote := ["b"], attachFails := false, failDetach := [], listStatus := none }
    ([], []) (by decide) (by decide) (by decide) (by decide)).1, by decide⟩

/-- Claim C9: idempotence.  If the recorded state agrees (as a set) with
the remote relation — the meaning of "no external mutation has intervened"
— and a reconciling update succeeds, then the state it stores back (the
re-listed remote) diffs to empty `toDetach`/`toAttach` against the same
desired set, and a second update run from that stored state issues no
attach and no detach call, whatever client it talks to. -/
theorem reconcile_idempotent (np : String) (sIDs pIDs : List String)
    (cl : AttachmentClient)
    (hsync : sIDs.toFinset = cl.remote.toFinset)
    (hA : cl.attachFails = false)
    (hD : ∀ y ∈ (sliceDifference sIDs pIDs).1, y ∉ cl.failDetach)
    (hL : cl.listStatus = none) :
    ∃ ids : List String,
      (nodePoolServersUpdate np (TFSet.known sIDs) (TFSet.known pIDs) cl).result =
        Except.ok ids ∧
      sliceDifference ids pIDs = ([], []) ∧
      ∀ cl2 : AttachmentClient,
        (nodePoolServersUpdate np (TFSet.known ids) (TFSet.known pIDs) cl2).calls.filter
          ApiCall.isMutation = [] := by
  have hsucc := nodePoolServersUpdate_success np (TFSet.known sIDs) (TFSet.known pIDs)
    cl (sliceDifference sIDs pIDs) rfl hA hD hL
  refine ⟨removeAll (sliceDifference sIDs pIDs).1
    (if (sliceDifference sIDs pIDs).2.isEmpty then cl.remote
     else attachUnion cl.remote (sliceDifference sIDs pIDs).2), ?_, ?_, ?_⟩
  · rw [hsucc]
  · apply sliceDifference_eq_nil_pair
    intro x
    rw [mem_removeAll]
    have hrem : x ∈ sIDs ↔ x ∈ cl.remote := mem_iff_of_toFinset_eq hsync x
    have hif : x ∈ (if (sliceDifference sIDs pIDs).2.isEmpty then cl.remote
        else attachUnion cl.remote (sliceDifference sIDs pIDs).2) ↔
        x ∈ cl.remote ∨ x ∈ (sliceDifference sIDs pIDs).2 := by
      by_cases he : (sliceDifference sIDs pIDs).2.isEmpty
      · rw [if_pos he, List.isEmpty_iff.mp he]
        simp
      · rw [if_neg he, mem_attachUnion]
    rw [hif, mem_sliceDifference_fst, mem_sliceDifference_snd]
    constructor
    · rintro ⟨h1 | h2, h3⟩
      · by_contra hnp
        exact h3 ⟨hrem.mpr h1, hnp⟩
      · exact h2.1
    · intro hx
      by_cases hs : x ∈ sIDs
      · exact ⟨Or.inl (hrem.mp hs), fun hc => hc.2 hx⟩
      · exact ⟨Or.inr ⟨hx, hs⟩, fun hc => hc.2 hx⟩
  · intro cl2
    apply nodePoolServersUpdate_mutation_free
    apply sliceDifference_eq_nil_pair
    intro x
    rw [mem_removeAll]
    have hrem : x ∈ sIDs ↔ x ∈ cl.remote := mem_iff_of_toFinset_eq hsync x
    have hif : x ∈ (if (sliceDifference sIDs pIDs).2.isEmpty then cl.remote
        else attachUnion cl.remote (sliceDifference sIDs pIDs).2) ↔
        x ∈ cl.remote ∨ x ∈ (sliceDifference sIDs pIDs).2 := by
      by_cases he : (sliceDifference sIDs pIDs).2.isEmpty
      · rw [if_pos he, List.isEmpty_iff.mp he]
        simp
      · rw [if_neg he, mem_attachUnion]
    rw [hif, mem_sliceDifference_fst, mem_sliceDifference_snd]
    constructor
    · rintro ⟨h1 | h2, h3⟩
      · by_contra hnp
        exact h3 ⟨hrem.mpr h1, hnp⟩
      · exact h2.1
    · intro hx
      by_cases hs : x ∈ sIDs
      · exact ⟨Or.inl (hrem.mp hs), fun hc => hc.2 hx⟩
      · exact ⟨Or.inr ⟨hx, hs⟩, fun hc => hc.2 hx⟩

/-- Witness for C9: recorded `{"a","b"}` in sync with remote `{"b","a"}`,
desired `{"b","c"}`, all calls succeeding. -/
theorem reconcile_idempotent_witness :
    (["a", "b"] : List String).toFinset =
      (["b", "a"] : List String).toFinset ∧
    ∃ ids : List String,
      (nodePoolServersUpdate "p" (TFSet.known ["a", "b"]) (TFSet.known ["b", "c"])
          { remote := ["b", "a"], attachFails := false, failDetach := [],
            listStatus := none }).result = Except.ok ids ∧
      sliceDifference ids ["b", "c"] = ([], []) ∧
      ∀ cl2 : AttachmentClient,
        (nodePoolServersUpdate "p" (TFSet.known ids) (TFSet.known ["b", "c"])
          cl2).calls.filter ApiCall.isMutation = [] := by
  exact ⟨by decide, reconcile_idempotent "p" ["a", "b"] ["b", "c"]
    { remote := ["b", "a"], attachFails := false, failDetach := [], listStatus := none }
    (by decide) (by decide) (by decide) (by decide)⟩

/-- Claim C10: a null or unknown Terraform set value is turned into the
empty id list by `stringSetToSlice`; consequently, when the planned desired
set is null or unknown, the diff has empty `toAttach` and a `toDetach`
containing exactly the distinct recorded member ids, and the update issues
no attach call and one detach call per distinct recorded id. -/
theorem null_plan_detaches_all (np : String) (oldIDs : List String)
    (cl : AttachmentClient) (pSet : TFSet)
    (hp : pSet = TFSet.null ∨ pSet = TFSet.unknown)
    (hA : cl.attachFails = false)
    (hD : ∀ y ∈ oldIDs, y ∉ cl.failDetach)
    (hL : cl.listStatus = none) :
    stringSetToSlice pSet = [] ∧
    (sliceDifference oldIDs (stringSetToSlice pSet)).2 = [] ∧
    (sliceDifference oldIDs (stringSetToSlice pSet)).1.toFinset = oldIDs.toFinset ∧
    (nodePoolServersUpdate np (TFSet.known oldIDs) pSet cl).calls.filter
        ApiCall.isAttachCall = [] ∧
    (nodePoolServersUpdate np (TFSet.known oldIDs) pSet cl).calls.filter
        ApiCall.isDetachCall =
      (sliceDifference oldIDs (stringSetToSlice pSet)).1.map (ApiCall.detach np) := by
  have hnull : stringSetToSlice pSet = [] := by
    rcases hp with h | h <;> subst h <;> rfl
  have hD' : ∀ y ∈ (sliceDifference oldIDs (stringSetToSlice pSet)).1,
      y ∉ cl.failDetach := by
    intro y hy
    exact hD y ((mem_sliceDifference_fst _ _ y).mp hy).1
  have hsucc := nodePoolServersUpdate_success np (TFSet.known oldIDs) pSet cl
    (sliceDifference oldIDs (stringSetToSlice pSet)) rfl hA hD' hL
  have hsnd : (sliceDifference oldIDs (stringSetToSlice pSet)).2 = [] := by
    rw [hnull]
    simp [sliceDifference]
  refine ⟨hnull, hsnd, ?_, ?_, ?_⟩
  · ext x
    simp [mem_sliceDifference_fst, hnull]
  · rw [hsucc]
    simp [hsnd, List.filter_append, filter_isAttach_map_detach, ApiCall.isAttachCall]
  · rw [hsucc]
    simp [hsnd, List.filter_append, filter_isDetach_map_detach, ApiCall.isDetachCall]

/-- Witness for C10 at recorded ids `["a","b","a"]` (with a duplicate) and a
null plan: no attach call, one detach per distinct recorded id. -/
theorem null_plan_detaches_all_witness :
    stringSetToSlice TFSet.null = [] ∧
    (nodePoolServersUpdate "p" (TFSet.known ["a", "b", "a"]) TFSet.null
        { remote := ["a", "b"], attachFails := false, failDetach := [],
          listStatus := none }).calls.filter ApiCall.isAttachCall = [] ∧
    (nodePoolServersUpdate "p" (TFSet.known ["a", "b", "a"]) TFSet.null
        { remote := ["a", "b"], attachFails := false, failDetach := [],
          listStatus := none }).calls.filter ApiCall.isDetachCall =
      (sliceDifference ["a", "b", "a"] (stringSetToSlice TFSet.null)).1.map
        (ApiCall.detach "p") := by
  have h := null_plan_detaches_all "p" ["a", "b", "a"]
    { remote := ["a", "b"], attachFails := false, failDetach := [], listStatus := none }
    TFSet.null (Or.inl rfl) (by decide) (by decide) (by decide)
  exact ⟨h.1, h.2.2.2.1, h.2.2.2.2⟩

/-- Claim C7: a not-found answer from the list call is distinguished and
reacted to without any mutation call.  Conjunct one: when the list GET
fails with HTTP 404, `nodePoolServersResource.Read` drops the resource from
state and its trace holds no attach or detach call.  Conjunct two: a list
failure with any other status instead surfaces an error diagnostic carrying
the `doJSON` message — a different outcome, so the two cases are
distinguishable.  Conjunct three: `isNotFound` classifies an error as
not-found exactly when its status is 404. -/
theorem read_distinguishes_not_found :
    (∀ (np : String) (cl : AttachmentClient), np ≠ "" →
      cl.listStatus = some 404 →
      nodePoolServersRead np cl = ([ApiCall.list np], ReadOutcome.removed) ∧
      (nodePoolServersRead np cl).1.filter ApiCall.isMutation = []) ∧
    (∀ (np : String) (cl : AttachmentClient) (s : Nat), np ≠ "" →
      cl.listStatus = some s → s ≠ 404 →
      nodePoolServersRead np cl =
        ([ApiCall.list np], ReadOutcome.errored
          ("Error reading servers for node pool: " ++ (doJSONErr s "").message))) ∧
    (∀ e : ApiError, isNotFound e = true ↔ e.status = 404) := by
  refine ⟨?_, ?_, ?_⟩
  · intro np cl hnp hL
    unfold nodePoolServersRead listCall
    rw [hL, if_neg hnp]
    simp [isNotFound, doJSONErr, ApiCall.isMutation]
  · intro np cl s hnp hL hs
    unfold nodePoolServersRead listCall
    rw [hL, if_neg hnp]
    simp [isNotFound, doJSONErr, hs]
  · intro e
    simp [isNotFound]

/-- Witness for C7: parent `"np"`, a 404 list failure (removed, no
mutations), a 500 list failure (errored), and `isNotFound` on the two
concrete `doJSON` errors. -/
theorem read_distinguishes_not_found_witness :
    (nodePoolServersRead "np"
        { remote := [], attachFails := false, failDetach := [],
          listStatus := some 404 } =
      ([ApiCall.list "np"], ReadOutcome.removed)) ∧
    (nodePoolServersRead "np"
        { remote := [], attachFails := false, failDetach := [],
          listStatus := some 500 } =
      ([ApiCall.list "np"], ReadOutcome.errored
        ("Error reading servers for node pool: " ++ (doJSONErr 500 "").message))) ∧
    (isNotFound (doJSONErr 404 "") = true ∧ isNotFound (doJSONErr 500 "") = false) := by
  refine ⟨(read_distinguishes_not_found.1 "np"
      { remote := [], attachFails := false, failDetach := [], listStatus := some 404 }
      (by decide) rfl).1,
    read_distinguishes_not_found.2.1 "np"
      { remote := [], attachFails := false, failDetach := [], listStatus := some 500 }
      500 (by decide) rfl (by decide),
    by decide, by decide⟩

/-- Claim C8 names behaviour the cluster node-pools resource does not have:
`clusterNodePoolsResource.Read` (cluster_attachments_resource.go:849-852)
removes the resource from state on ANY error from the list call — a 500
transport failure included — surfacing nothing, whereas
`nodePoolServersResource.Read` surfaces the same failure as a diagnostic.
This theorem evaluates both Read methods at the failing input (a list call
answering HTTP 500 while the relation still holds `"x"`). -/
theorem cluster_read_swallows_errors :
    clusterNodePoolsRead "c1"
        { remote := ["x"], attachFails := false, failDetach := [],
          listStatus := some 500 } =
      ([ApiCall.list "c1"], ReadOutcome.removed) ∧
    nodePoolServersRead "np"
        { remote := ["x"], attachFails := false, failDetach := [],
          listStatus := some 500 } =
      ([ApiCall.list "np"], ReadOutcome.errored
        "Error reading servers for node pool: autoglue API error 500: ") := by
  decide
